import Mathlib

/-!
Verification development for the nssm_exec repository (two Rust revisions:
src/bin/nssm_exec.rs, called the Bin revision below, and src/main.rs, called
the MainRev revision below).  The definitions shallowly embed the Rust code:
paths and command lines are strings, machine integers are Nat, fallible
calls return Except, and the interaction with the external nssm tool is an
explicit oracle indexed by the number of shell commands issued so far.
Effects (issued commands, sleeps, logged warnings) are threaded through an
explicit Exec state, so every claim about traces, poll counts and outcomes
is a statement about computable functions.
-/

set_option maxHeartbeats 1000000

deriving instance DecidableEq for Except

/-- Closed lifecycle-state enumeration of src/bin/nssm_exec.rs (enum ServiceState). -/
inductive ServiceState
  | ContinuePending
  | PausePending
  | Paused
  | Running
  | StartPending
  | StopPending
  | Stopped
deriving DecidableEq

/-- Windows account settings (struct Account): username plus password, the
password may be the empty string. -/
structure Account where
  user : String
  password : String
deriving DecidableEq

/-- Extra configurations (struct OtherConfig), usable per service or globally. -/
structure OtherConfig where
  deps : Option String
  start_on_create : Option Bool
  account : Option Account
deriving DecidableEq

/-- Configuration of one service (struct Service).  PathBuf is embedded as
String; to_string_lossy is the identity in this embedding. -/
structure Service where
  name : String
  path : String
  startup_dir : Option String
  args : Option String
  description : Option String
  other : Option OtherConfig
deriving DecidableEq

/-- Error values: an ordered causal-message chain, outermost message first.
The Rust code builds these with error_chain; chain_err prepends a message. -/
abbrev Err := List String

/-- Observable execution state threaded through the embedded program:
the shell commands issued so far (in order), the sleeps performed so far
(each recorded with its duration in milliseconds), and the warning chains
logged so far. -/
structure Exec where
  trace : List String
  sleeps : List Nat
  warnings : List Err
deriving DecidableEq

/-- Initial execution state: nothing issued yet. -/
def Exec.start : Exec := ⟨[], [], []⟩

/-- Record one issued shell command. -/
def pushCmd (st : Exec) (c : String) : Exec :=
  ⟨st.trace ++ [c], st.sleeps, st.warnings⟩

/-- Record one sleep of the given duration in milliseconds. -/
def pushSleep (st : Exec) (ms : Nat) : Exec :=
  ⟨st.trace, st.sleeps ++ [ms], st.warnings⟩

/-- Record one logged warning chain. -/
def pushWarn (st : Exec) (w : Err) : Exec :=
  ⟨st.trace, st.sleeps, st.warnings ++ [w]⟩

/-- Oracle for the external world: given the number of shell commands issued
so far and the command line, it yields the captured stdout on success or the
already-formatted failure message (spawn failure or non-zero exit) otherwise. -/
abbrev Env := Nat → String → Except String String

/-- ASCII whitespace test used to model str::trim of Rust. -/
def isWS (c : Char) : Bool :=
  c == ' ' || c == '\t' || c == '\n' || c == '\r'

/-- Executable model of str::trim of Rust: drop leading and trailing
whitespace characters. -/
def trimStr (s : String) : String :=
  String.mk (((s.data.dropWhile isWS).reverse.dropWhile isWS).reverse)

/-- Embedding of fn remove_zeros (identical in both revisions): drop every
NUL byte from the captured output. -/
def remove_zeros (s : String) : String :=
  String.mk (s.data.filter (fun c => c ≠ Char.ofNat 0))

/-- Embedding of ChainService::chain_service_msg (identical in both
revisions): prepend the formatted per-service message to the causal chain. -/
def chain_service_msg (e : Err) (description : String) (service_name : String) : Err :=
  (description ++ " service \x27" ++ service_name ++ "\x27") :: e

/-- Embedding of fn runCmd (identical in both revisions): issue one shell
command and classify the result.  The command always enters the trace; the
oracle decides success (captured stdout) or failure (formatted message). -/
def runCmd (env : Env) (st : Exec) (cmd : String) : Except Err String × Exec :=
  match env st.trace.length cmd with
  | Except.ok out => (Except.ok out, pushCmd st cmd)
  | Except.error m => (Except.error [m], pushCmd st cmd)

/-- Embedding of fn merge_other_conf (identical in both revisions): the
per-service choice if present, otherwise the global choice. -/
def merge_other_conf {R : Type} (lhs rhs : Option OtherConfig)
    (chooser : OtherConfig → Option R) : Option R :=
  (lhs.bind chooser).or (rhs.bind chooser)

/-- Sequencing of two fallible steps, modelling the question-mark operator:
the second step runs only when the first returned Ok. -/
def andThen (r : Except Err Unit × Exec) (f : Exec → Except Err Unit × Exec) :
    Except Err Unit × Exec :=
  match r with
  | (Except.ok _, st) => f st
  | (Except.error e, st) => (Except.error e, st)

/-- Embedding of the static STATE_MAP of src/bin/nssm_exec.rs, in insertion
order. -/
def STATE_MAP : List (String × ServiceState) :=
  [("SERVICE_CONTINUE_PENDING", ServiceState.ContinuePending),
   ("SERVICE_PAUSE_PENDING", ServiceState.PausePending),
   ("SERVICE_PAUSED", ServiceState.Paused),
   ("SERVICE_RUNNING", ServiceState.Running),
   ("SERVICE_START_PENDING", ServiceState.StartPending),
   ("SERVICE_STOP_PENDING", ServiceState.StopPending),
   ("SERVICE_STOPPED", ServiceState.Stopped)]

/-- Embedding of fn state_from_str of src/bin/nssm_exec.rs: exact lookup of
the status token in STATE_MAP, with the formatted message on a miss. -/
def state_from_str (status : String) : Except String ServiceState :=
  match STATE_MAP.lookup status with
  | some state => Except.ok state
  | none =>
      Except.error
        ("Unable to obtain valid state from status string \x27" ++ status ++ "\x27")

namespace Bin

/-- TOML configuration of the Bin revision (struct FileConfig of
src/bin/nssm_exec.rs). -/
structure FileConfig where
  nssm_path : String
  pending_stop_poll_ms : Option Nat
  pending_stop_poll_count : Option Nat
  pending_start_poll_ms : Option Nat
  pending_start_poll_count : Option Nat
  global : Option OtherConfig
  services : List Service
deriving DecidableEq

/-- Default poll interval in milliseconds (const PENDING_POLL_DEFAULT_MS). -/
def PENDING_POLL_DEFAULT_MS : Nat := 500

/-- Default poll attempt count (const PENDING_POLL_DEFAULT_COUNT). -/
def PENDING_POLL_DEFAULT_COUNT : Nat := 5

/-- Embedding of fn run_nssm_cmd: prepend the nssm executable path. -/
def run_nssm_cmd (env : Env) (fc : FileConfig) (st : Exec) (cmd : String) :
    Except Err String × Exec :=
  runCmd env st (fc.nssm_path ++ " " ++ cmd)

/-- Embedding of fn run_nssm_set_cmd. -/
def run_nssm_set_cmd (env : Env) (fc : FileConfig) (st : Exec) (cmd : String) :
    Except Err String × Exec :=
  run_nssm_cmd env fc st ("set " ++ cmd)

/-- Embedding of fn run_nssm_set_cmd_if_some: issue the set command only when
the optional parameter is present, chaining the per-field failure message. -/
def run_nssm_set_cmd_if_some (env : Env) (fc : FileConfig)
    (service_name field_name : String) (param : Option String) (st : Exec) :
    Except Err Unit × Exec :=
  match param with
  | none => (Except.ok (), st)
  | some p =>
      match run_nssm_set_cmd env fc st (service_name ++ " " ++ field_name ++ " " ++ p) with
      | (Except.ok _, st1) => (Except.ok (), st1)
      | (Except.error e, st1) =>
          (Except.error
            (chain_service_msg e ("Unable to set \x27" ++ field_name ++ "\x27 for")
              service_name), st1)

/-- Embedding of fn run_nssm_status_cmd. -/
def run_nssm_status_cmd (env : Env) (fc : FileConfig) (name : String) (st : Exec) :
    Except Err String × Exec :=
  run_nssm_cmd env fc st ("status " ++ name)

/-- Full command line issued by one status query. -/
def statusCmdStr (fc : FileConfig) (name : String) : String :=
  fc.nssm_path ++ " " ++ ("status " ++ name)

/-- Embedding of fn run_nssm_status_cmd_extract_status: run the status
command, strip NUL bytes, trim, and interpret through state_from_str. -/
def run_nssm_status_cmd_extract_status (env : Env) (fc : FileConfig)
    (name : String) (st : Exec) : Except Err ServiceState × Exec :=
  match run_nssm_status_cmd env fc name st with
  | (Except.error e, st1) => (Except.error e, st1)
  | (Except.ok out, st1) =>
      match state_from_str (trimStr (remove_zeros out)) with
      | Except.ok s => (Except.ok s, st1)
      | Except.error m => (Except.error [m], st1)

/-- Pure value of the status query issued at oracle index idx. -/
def statusOutcome (env : Env) (fc : FileConfig) (name : String) (idx : Nat) :
    Except Err ServiceState :=
  match env idx (statusCmdStr fc name) with
  | Except.error m => Except.error [m]
  | Except.ok out =>
      match state_from_str (trimStr (remove_zeros out)) with
      | Except.ok s => Except.ok s
      | Except.error m => Except.error [m]

/-- Truth value computed from one status-query result inside the poll loop:
the expected state was observed; an erroring query counts as not reached. -/
def reachedB (r : Except Err ServiceState) (expected : ServiceState) : Bool :=
  match r with
  | Except.ok s => decide (s = expected)
  | Except.error _ => false

/-- Truth value of the poll attempt whose status query runs at oracle
index idx. -/
def reachedAt (env : Env) (fc : FileConfig) (name : String)
    (expected : ServiceState) (idx : Nat) : Bool :=
  reachedB (statusOutcome env fc name idx) expected

/-- Operational meaning of the interleaved iterators inside fn
poll_service_state_until: issue one status query per attempt, stop at the
first attempt observing the expected state, sleep the interval between
consecutive attempts only (never after the last). -/
def poll_loop (name : String) (env : Env) (fc : FileConfig)
    (poll_interval : Nat) (expected_state : ServiceState) :
    Nat → Exec → Bool × Exec
  | 0, st => (false, st)
  | n + 1, st =>
      match run_nssm_status_cmd_extract_status env fc name st with
      | (r, st1) =>
          if reachedB r expected_state then (true, st1)
          else
            match n with
            | 0 => (false, st1)
            | m + 1 =>
                poll_loop name env fc poll_interval expected_state (m + 1)
                  (pushSleep st1 poll_interval)

/-- Fixed timeout message of fn poll_service_state_until (used for every
expected state, including Running). -/
def pollTimeoutMsg (name : String) : String :=
  "Unable to wait for service name \x27" ++ name ++ "\x27 to stop completely"

/-- Embedding of fn poll_service_state_until of src/bin/nssm_exec.rs. -/
def poll_service_state_until (name : String) (env : Env) (fc : FileConfig)
    (poll_interval poll_count : Nat) (expected_state : ServiceState) (st : Exec) :
    Except Err Unit × Exec :=
  match poll_loop name env fc poll_interval expected_state poll_count st with
  | (true, st1) => (Except.ok (), st1)
  | (false, st1) => (Except.error [pollTimeoutMsg name], st1)

/-- Remove step of fn nssm_exec (Bin revision): remove-with-confirm command,
failure fatal with the chained message. -/
def remove_step (env : Env) (fc : FileConfig) (name : String) (st : Exec) :
    Except Err Unit × Exec :=
  match run_nssm_cmd env fc st ("remove " ++ name ++ " confirm") with
  | (Except.ok _, st1) => (Except.ok (), st1)
  | (Except.error e, st1) => (Except.error (chain_service_msg e "Unable to remove" name), st1)

/-- Stop step of fn nssm_exec (Bin revision): issue the stop command; when it
errors, log the chained warning and continue; then poll until Stopped. -/
def stop_and_poll (env : Env) (fc : FileConfig) (stopInterval stopCount : Nat)
    (name : String) (st : Exec) : Except Err Unit × Exec :=
  match run_nssm_cmd env fc st ("stop " ++ name) with
  | (Except.ok _, st1) =>
      poll_service_state_until name env fc stopInterval stopCount ServiceState.Stopped st1
  | (Except.error e, st1) =>
      poll_service_state_until name env fc stopInterval stopCount ServiceState.Stopped
        (pushWarn st1
          (chain_service_msg e "Service stopping returned error, temporarily allowing this for"
            name))

/-- Detection plus teardown of fn nssm_exec (Bin revision): query the status;
on query failure treat the service as absent and do nothing; otherwise stop
and poll when not already Stopped, then remove. -/
def existing_service_phase (env : Env) (fc : FileConfig)
    (stopInterval stopCount : Nat) (svc : Service) (st : Exec) :
    Except Err Unit × Exec :=
  match run_nssm_status_cmd_extract_status env fc svc.name st with
  | (Except.error _, st1) => (Except.ok (), st1)
  | (Except.ok state, st1) =>
      andThen
        (if state = ServiceState.Stopped then (Except.ok (), st1)
         else stop_and_poll env fc stopInterval stopCount svc.name st1)
        (remove_step env fc svc.name)

/-- Install step of fn nssm_exec (Bin revision): the configured service path
is used verbatim (the source notes the path is taken relative to nssm.exe). -/
def install_phase (env : Env) (fc : FileConfig) (svc : Service) (st : Exec) :
    Except Err Unit × Exec :=
  match run_nssm_cmd env fc st ("install " ++ svc.name ++ " " ++ svc.path) with
  | (Except.ok _, st1) => (Except.ok (), st1)
  | (Except.error e, st1) =>
      (Except.error (chain_service_msg e "Unable to install" svc.name), st1)

/-- Startup-directory step of fn nssm_exec (Bin revision), issued only when
configured. -/
def app_dir_phase (env : Env) (fc : FileConfig) (svc : Service) (st : Exec) :
    Except Err Unit × Exec :=
  match svc.startup_dir with
  | none => (Except.ok (), st)
  | some dir =>
      match run_nssm_set_cmd env fc st (svc.name ++ " AppDirectory " ++ dir) with
      | (Except.ok _, st1) => (Except.ok (), st1)
      | (Except.error e, st1) =>
          (Except.error (chain_service_msg e "Unable to set startup directory for" svc.name),
            st1)

/-- Account step of fn nssm_exec (Bin revision): when an account was merged,
issue the ObjectName set command with the username and the password token; a
non-empty password is rendered verbatim and an empty one as the quoted empty
token. -/
def account_phase (env : Env) (fc : FileConfig) (name : String)
    (acct : Option Account) (st : Exec) : Except Err Unit × Exec :=
  match acct with
  | none => (Except.ok (), st)
  | some a =>
      match
        run_nssm_set_cmd env fc st
          (name ++ " ObjectName " ++ a.user ++ " " ++
            (if a.password ≠ "" then a.password else "\"\"")) with
      | (Except.ok _, st1) => (Except.ok (), st1)
      | (Except.error e, st1) =>
          (Except.error (chain_service_msg e "Unable to set the username and password for" name),
            st1)

/-- Start step of fn nssm_exec (Bin revision): only when the merged
start_on_create is Some true, issue the start command (warning on error,
execution continues) and poll until Running. -/
def start_phase (env : Env) (fc : FileConfig) (name : String)
    (startInterval startCount : Nat) (merged_start : Option Bool) (st : Exec) :
    Except Err Unit × Exec :=
  match merged_start with
  | some true =>
      match run_nssm_cmd env fc st ("start " ++ name) with
      | (Except.ok _, st1) =>
          poll_service_state_until name env fc startInterval startCount
            ServiceState.Running st1
      | (Except.error e, st1) =>
          poll_service_state_until name env fc startInterval startCount
            ServiceState.Running
            (pushWarn st1
              (chain_service_msg e
                "Service starting returned error, temporarily allowing this for" name))
  | _ => (Except.ok (), st)

/-- Steps of the per-service closure after detection and teardown: install,
startup directory, arguments, description, merged dependencies, merged
account, merged start. -/
def reconcile_after_existing (env : Env) (fc : FileConfig)
    (startInterval startCount : Nat) (svc : Service) (st : Exec) :
    Except Err Unit × Exec :=
  andThen (install_phase env fc svc st) (fun st1 =>
  andThen (app_dir_phase env fc svc st1) (fun st2 =>
  andThen (run_nssm_set_cmd_if_some env fc svc.name "AppParameters" svc.args st2) (fun st3 =>
  andThen (run_nssm_set_cmd_if_some env fc svc.name "Description" svc.description st3)
    (fun st4 =>
  andThen
    (run_nssm_set_cmd_if_some env fc svc.name "DependOnService"
      (merge_other_conf svc.other fc.global (fun other => other.deps)) st4) (fun st5 =>
  andThen
    (account_phase env fc svc.name
      (merge_other_conf svc.other fc.global (fun other => other.account)) st5) (fun st6 =>
  start_phase env fc svc.name startInterval startCount
    (merge_other_conf svc.other fc.global (fun other => other.start_on_create)) st6))))))

/-- Per-service closure of fn nssm_exec (Bin revision). -/
def reconcile (env : Env) (fc : FileConfig)
    (stopInterval stopCount startInterval startCount : Nat) (svc : Service)
    (st : Exec) : Except Err Unit × Exec :=
  andThen (existing_service_phase env fc stopInterval stopCount svc st)
    (reconcile_after_existing env fc startInterval startCount svc)

/-- Sequential application of the per-service closure to every declared
service, collecting the name paired with its outcome, in document order. -/
def reconcile_all (env : Env) (fc : FileConfig)
    (stopInterval stopCount startInterval startCount : Nat) :
    List Service → Exec → List (String × Except Err Unit) × Exec
  | [], st => ([], st)
  | svc :: rest, st =>
      match reconcile env fc stopInterval stopCount startInterval startCount svc st with
      | (outcome, st1) =>
          match reconcile_all env fc stopInterval stopCount startInterval startCount rest st1 with
          | (outs, st2) => ((svc.name, outcome) :: outs, st2)

/-- Embedding of fn nssm_exec (Bin revision): resolve the poll settings,
reconcile every service collecting one outcome each, and return Ok
unconditionally (failed outcomes are logged, not propagated). -/
def nssm_exec (env : Env) (fc : FileConfig) (st : Exec) :
    Except Err Unit × (List (String × Except Err Unit) × Exec) :=
  (Except.ok (),
    reconcile_all env fc
      (fc.pending_stop_poll_ms.getD PENDING_POLL_DEFAULT_MS)
      (fc.pending_stop_poll_count.getD PENDING_POLL_DEFAULT_COUNT)
      (fc.pending_start_poll_ms.getD PENDING_POLL_DEFAULT_MS)
      (fc.pending_start_poll_count.getD PENDING_POLL_DEFAULT_COUNT)
      fc.services st)

/-- Embedding of fn run (Bin revision), with logger and configuration loading
abstracted into one Except argument: a load failure is fatal, otherwise the
driver runs and its error (never produced) would be chained. -/
def run (env : Env) (load : Except Err FileConfig) : Except Err Unit :=
  match load with
  | Except.error e => Except.error e
  | Except.ok fc =>
      match (nssm_exec env fc Exec.start).1 with
      | Except.ok _ => Except.ok ()
      | Except.error e => Except.error ("Unable to complete all nssm operations" :: e)

/-- Embedding of fn main (Bin revision): exit code 0 on Ok, 1 on error. -/
def mainExit (env : Env) (load : Except Err FileConfig) : Nat :=
  match run env load with
  | Except.ok _ => 0
  | Except.error _ => 1

end Bin

namespace MainRev

/-- TOML configuration of the MainRev revision (struct FileConfig of
src/main.rs): no start-poll settings exist in this revision. -/
structure FileConfig where
  nssm_path : String
  pending_stop_poll_ms : Option Nat
  pending_stop_poll_count : Option Nat
  global : Option OtherConfig
  services : List Service
deriving DecidableEq

/-- Status token compared against by the stop poll (const
SERVICE_STOP_PENDING_STATUS). -/
def SERVICE_STOP_PENDING_STATUS : String := "SERVICE_STOP_PENDING"

/-- Status token of an already stopped service (const SERVICE_STOPPED_STATUS). -/
def SERVICE_STOPPED_STATUS : String := "SERVICE_STOPPED"

/-- Default poll interval in milliseconds (const PENDING_STOP_POLL_MS_DEF). -/
def PENDING_STOP_POLL_MS_DEF : Nat := 500

/-- Default poll attempt count (const PENDING_STOP_POLL_COUNT_DEF). -/
def PENDING_STOP_POLL_COUNT_DEF : Nat := 5

/-- Embedding of fn run_nssm_cmd (MainRev revision). -/
def run_nssm_cmd (env : Env) (fc : FileConfig) (st : Exec) (cmd : String) :
    Except Err String × Exec :=
  runCmd env st (fc.nssm_path ++ " " ++ cmd)

/-- Embedding of fn run_nssm_set_cmd (MainRev revision). -/
def run_nssm_set_cmd (env : Env) (fc : FileConfig) (st : Exec) (cmd : String) :
    Except Err String × Exec :=
  run_nssm_cmd env fc st ("set " ++ cmd)

/-- Embedding of fn run_nssm_set_cmd_if_some (MainRev revision). -/
def run_nssm_set_cmd_if_some (env : Env) (fc : FileConfig)
    (service_name field_name : String) (param : Option String) (st : Exec) :
    Except Err Unit × Exec :=
  match param with
  | none => (Except.ok (), st)
  | some p =>
      match run_nssm_set_cmd env fc st (service_name ++ " " ++ field_name ++ " " ++ p) with
      | (Except.ok _, st1) => (Except.ok (), st1)
      | (Except.error e, st1) =>
          (Except.error
            (chain_service_msg e ("Unable to set \x27" ++ field_name ++ "\x27 for")
              service_name), st1)

/-- Embedding of fn run_nssm_status_cmd (MainRev revision). -/
def run_nssm_status_cmd (env : Env) (fc : FileConfig) (name : String) (st : Exec) :
    Except Err String × Exec :=
  run_nssm_cmd env fc st ("status " ++ name)

/-- Full command line issued by one status query (MainRev revision). -/
def statusCmdStr (fc : FileConfig) (name : String) : String :=
  fc.nssm_path ++ " " ++ ("status " ++ name)

/-- Embedding of fn run_nssm_status_cmd_extract_status (MainRev revision):
this revision returns the trimmed status string itself, not a parsed state. -/
def run_nssm_status_cmd_extract_status (env : Env) (fc : FileConfig)
    (name : String) (st : Exec) : Except Err String × Exec :=
  match run_nssm_status_cmd env fc name st with
  | (Except.error e, st1) => (Except.error e, st1)
  | (Except.ok out, st1) => (Except.ok (trimStr (remove_zeros out)), st1)

/-- Pure value of the status query issued at oracle index idx (MainRev
revision). -/
def statusStrOutcome (env : Env) (fc : FileConfig) (name : String) (idx : Nat) :
    Except Err String :=
  match env idx (statusCmdStr fc name) with
  | Except.error m => Except.error [m]
  | Except.ok out => Except.ok (trimStr (remove_zeros out))

/-- Truth value computed inside the stop poll from one query result: the
service counts as stopped on any trimmed status other than
SERVICE_STOP_PENDING; an erroring query counts as still pending. -/
def hasStoppedB (r : Except Err String) : Bool :=
  match r with
  | Except.ok s => decide (s ≠ SERVICE_STOP_PENDING_STATUS)
  | Except.error _ => false

/-- Truth value of the stop-poll attempt whose status query runs at oracle
index idx (MainRev revision). -/
def stoppedAt (env : Env) (fc : FileConfig) (name : String) (idx : Nat) : Bool :=
  hasStoppedB (statusStrOutcome env fc name idx)

/-- Operational meaning of the any-loop inside fn
poll_service_status_until_empty: one query per attempt, and a sleep after
every attempt that still looks pending, including the last one. -/
def poll_loop_until_empty (name : String) (env : Env) (fc : FileConfig)
    (poll_interval : Nat) : Nat → Exec → Bool × Exec
  | 0, st => (false, st)
  | n + 1, st =>
      match run_nssm_status_cmd_extract_status env fc name st with
      | (r, st1) =>
          if hasStoppedB r then (true, st1)
          else poll_loop_until_empty name env fc poll_interval n (pushSleep st1 poll_interval)

/-- Embedding of fn poll_service_status_until_empty of src/main.rs. -/
def poll_service_status_until_empty (name : String) (env : Env) (fc : FileConfig)
    (poll_interval poll_count : Nat) (st : Exec) : Except Err Unit × Exec :=
  match poll_loop_until_empty name env fc poll_interval poll_count st with
  | (true, st1) => (Except.ok (), st1)
  | (false, st1) =>
      (Except.error
        ["Unable to wait for service name \x27" ++ name ++ "\x27 to stop completely"], st1)

/-- Detection plus teardown of fn nssm_exec (MainRev revision): on a
successful status query, a status other than SERVICE_STOPPED triggers a stop
command whose failure is fatal here; the stop poll then always runs, and the
remove command follows. -/
def existing_service_phase (env : Env) (fc : FileConfig)
    (stopInterval stopCount : Nat) (svc : Service) (st : Exec) :
    Except Err Unit × Exec :=
  match run_nssm_status_cmd_extract_status env fc svc.name st with
  | (Except.error _, st1) => (Except.ok (), st1)
  | (Except.ok status, st1) =>
      andThen
        (andThen
          (if status ≠ SERVICE_STOPPED_STATUS then
            match run_nssm_cmd env fc st1 ("stop " ++ svc.name) with
            | (Except.ok _, st2) => (Except.ok (), st2)
            | (Except.error e, st2) =>
                (Except.error (chain_service_msg e "Unable to stop" svc.name), st2)
           else (Except.ok (), st1))
          (fun st2 =>
            poll_service_status_until_empty svc.name env fc stopInterval stopCount st2))
        (fun st3 =>
          match run_nssm_cmd env fc st3 ("remove " ++ svc.name ++ " confirm") with
          | (Except.ok _, st4) => (Except.ok (), st4)
          | (Except.error e, st4) =>
              (Except.error (chain_service_msg e "Unable to remove" svc.name), st4))

/-- Canonicalize-and-install step of fn nssm_exec (MainRev revision): the
configured path goes through the filesystem canonicalization oracle first,
and the install command carries the canonical path, not the raw one. -/
def install_block (env : Env) (fc : FileConfig) (canon : String → Except String String)
    (svc : Service) (st : Exec) : Except Err Unit × Exec :=
  match canon svc.path with
  | Except.error m =>
      (Except.error
        (chain_service_msg [m]
          ("Unable to canonicalize path \x27" ++ svc.path ++ "\x27 for") svc.name), st)
  | Except.ok canonPath =>
      match run_nssm_cmd env fc st ("install " ++ svc.name ++ " " ++ canonPath) with
      | (Except.ok _, st1) => (Except.ok (), st1)
      | (Except.error e, st1) =>
          (Except.error (chain_service_msg e "Unable to install" svc.name), st1)

/-- Startup-directory step of fn nssm_exec (MainRev revision), with the same
canonicalization as the install step. -/
def app_dir_block (env : Env) (fc : FileConfig) (canon : String → Except String String)
    (svc : Service) (st : Exec) : Except Err Unit × Exec :=
  match svc.startup_dir with
  | none => (Except.ok (), st)
  | some dir =>
      match canon dir with
      | Except.error m =>
          (Except.error
            (chain_service_msg [m]
              ("Unable to canonicalize startup directory path \x27" ++ dir ++ "\x27 for")
              svc.name), st)
      | Except.ok canonDir =>
          match run_nssm_set_cmd env fc st (svc.name ++ " AppDirectory " ++ canonDir) with
          | (Except.ok _, st1) => (Except.ok (), st1)
          | (Except.error e, st1) =>
              (Except.error (chain_service_msg e "Unable to set startup directory for" svc.name),
                st1)

/-- Account step of fn nssm_exec (MainRev revision), identical rendering of
the password token to the Bin revision. -/
def account_phase (env : Env) (fc : FileConfig) (name : String)
    (acct : Option Account) (st : Exec) : Except Err Unit × Exec :=
  match acct with
  | none => (Except.ok (), st)
  | some a =>
      match
        run_nssm_set_cmd env fc st
          (name ++ " ObjectName " ++ a.user ++ " " ++
            (if a.password ≠ "" then a.password else "\"\"")) with
      | (Except.ok _, st1) => (Except.ok (), st1)
      | (Except.error e, st1) =>
          (Except.error (chain_service_msg e "Unable to set the username and password for" name),
            st1)

/-- Start step of fn nssm_exec (MainRev revision): a failing start command is
fatal here, and no start poll exists. -/
def start_phase (env : Env) (fc : FileConfig) (name : String)
    (merged_start : Option Bool) (st : Exec) : Except Err Unit × Exec :=
  match merged_start with
  | some b =>
      if b then
        match run_nssm_cmd env fc st ("start " ++ name) with
        | (Except.ok _, st1) => (Except.ok (), st1)
        | (Except.error e, st1) =>
            (Except.error (chain_service_msg e "Unable to start" name), st1)
      else (Except.ok (), st)
  | none => (Except.ok (), st)

/-- Per-service closure of fn nssm_exec (MainRev revision). -/
def reconcile (env : Env) (fc : FileConfig) (canon : String → Except String String)
    (stopInterval stopCount : Nat) (svc : Service) (st : Exec) :
    Except Err Unit × Exec :=
  andThen (existing_service_phase env fc stopInterval stopCount svc st) (fun st1 =>
  andThen (install_block env fc canon svc st1) (fun st2 =>
  andThen (app_dir_block env fc canon svc st2) (fun st3 =>
  andThen (run_nssm_set_cmd_if_some env fc svc.name "AppParameters" svc.args st3) (fun st4 =>
  andThen (run_nssm_set_cmd_if_some env fc svc.name "Description" svc.description st4)
    (fun st5 =>
  andThen
    (run_nssm_set_cmd_if_some env fc svc.name "DependOnService"
      (merge_other_conf svc.other fc.global (fun other => other.deps)) st5) (fun st6 =>
  andThen
    (account_phase env fc svc.name
      (merge_other_conf svc.other fc.global (fun other => other.account)) st6) (fun st7 =>
  start_phase env fc svc.name
    (merge_other_conf svc.other fc.global (fun other => other.start_on_create)) st7)))))))

/-- Sequential application of the per-service closure to every declared
service (MainRev revision). -/
def reconcile_all (env : Env) (fc : FileConfig) (canon : String → Except String String)
    (stopInterval stopCount : Nat) :
    List Service → Exec → List (String × Except Err Unit) × Exec
  | [], st => ([], st)
  | svc :: rest, st =>
      match reconcile env fc canon stopInterval stopCount svc st with
      | (outcome, st1) =>
          match reconcile_all env fc canon stopInterval stopCount rest st1 with
          | (outs, st2) => ((svc.name, outcome) :: outs, st2)

/-- Embedding of fn nssm_exec (MainRev revision). -/
def nssm_exec (env : Env) (fc : FileConfig) (canon : String → Except String String)
    (st : Exec) : Except Err Unit × (List (String × Except Err Unit) × Exec) :=
  (Except.ok (),
    reconcile_all env fc canon
      (fc.pending_stop_poll_ms.getD PENDING_STOP_POLL_MS_DEF)
      (fc.pending_stop_poll_count.getD PENDING_STOP_POLL_COUNT_DEF)
      fc.services st)

end MainRev


/-- Command line of the install step for one service (Bin revision). -/
def Bin.installCmdStr (fc : Bin.FileConfig) (svc : Service) : String :=
  fc.nssm_path ++ " " ++ ("install " ++ svc.name ++ " " ++ svc.path)

/-- Commands issued by an optional set step: none when the parameter is
absent, one set command otherwise (Bin revision). -/
def Bin.setIfSomeCmds (fc : Bin.FileConfig) (name field : String) :
    Option String → List String
  | none => []
  | some p => [fc.nssm_path ++ " " ++ ("set " ++ (name ++ " " ++ field ++ " " ++ p))]

/-- Commands issued by the startup-directory step (Bin revision). -/
def Bin.appDirCmds (fc : Bin.FileConfig) (svc : Service) : List String :=
  match svc.startup_dir with
  | none => []
  | some d => [fc.nssm_path ++ " " ++ ("set " ++ (svc.name ++ " AppDirectory " ++ d))]

/-- Commands issued by the account step (Bin revision). -/
def Bin.acctCmds (fc : Bin.FileConfig) (name : String) : Option Account → List String
  | none => []
  | some a =>
      [fc.nssm_path ++ " " ++ ("set " ++ (name ++ " ObjectName " ++ a.user ++ " "
        ++ (if a.password ≠ "" then a.password else "\"\"")))]

theorem pushCmd_trace (st : Exec) (c : String) : (pushCmd st c).trace = st.trace ++ [c] := rfl

theorem pushCmd_length (st : Exec) (c : String) :
    (pushCmd st c).trace.length = st.trace.length + 1 := by
  simp [pushCmd]

theorem pushSleep_trace (st : Exec) (ms : Nat) : (pushSleep st ms).trace = st.trace := rfl

theorem Bin.extract_state_eq (env : Env) (fc : Bin.FileConfig) (name : String) (st : Exec) :
    Bin.run_nssm_status_cmd_extract_status env fc name st
      = (Bin.statusOutcome env fc name st.trace.length, pushCmd st (Bin.statusCmdStr fc name)) := by
  simp only [Bin.run_nssm_status_cmd_extract_status, Bin.run_nssm_status_cmd,
    Bin.run_nssm_cmd, runCmd, Bin.statusOutcome, Bin.statusCmdStr]
  cases h : env st.trace.length (fc.nssm_path ++ " " ++ ("status " ++ name)) with
  | ok out =>
      simp only []
      cases h2 : state_from_str (trimStr (remove_zeros out)) <;> simp
  | error m => simp

theorem Bin.poll_loop_succ (env : Env) (fc : Bin.FileConfig) (name : String)
    (itv : Nat) (e : ServiceState) (n : Nat) (st : Exec) :
    Bin.poll_loop name env fc itv e (n + 1) st
      = (if Bin.reachedAt env fc name e st.trace.length
         then (true, pushCmd st (Bin.statusCmdStr fc name))
         else
           match n with
           | 0 => (false, pushCmd st (Bin.statusCmdStr fc name))
           | m + 1 =>
               Bin.poll_loop name env fc itv e (m + 1)
                 (pushSleep (pushCmd st (Bin.statusCmdStr fc name)) itv)) := by
  rw [Bin.poll_loop, Bin.extract_state_eq]
  rfl

theorem Bin.poll_loop_miss (env : Env) (fc : Bin.FileConfig) (name : String)
    (itv : Nat) (e : ServiceState) :
    ∀ (n : Nat) (st : Exec),
      (∀ j, j < n → Bin.reachedAt env fc name e (st.trace.length + j) = false) →
      Bin.poll_loop name env fc itv e n st
        = (false,
            ⟨st.trace ++ List.replicate n (Bin.statusCmdStr fc name),
             st.sleeps ++ List.replicate (n - 1) itv, st.warnings⟩) := by
  intro n
  induction n with
  | zero => intro st _; simp [Bin.poll_loop]
  | succ m ih =>
      intro st h
      have h0 : Bin.reachedAt env fc name e st.trace.length = false := by
        have := h 0 (Nat.succ_pos m)
        simpa using this
      rw [Bin.poll_loop_succ, h0]
      cases m with
      | zero => simp [pushCmd]
      | succ m0 =>
          have hrec := ih (pushSleep (pushCmd st (Bin.statusCmdStr fc name)) itv)
            (by
              intro j hj
              have := h (j + 1) (Nat.succ_lt_succ hj)
              simpa [pushSleep, pushCmd, Nat.add_assoc, Nat.add_comm 1 j] using this)
          simp only [Bool.false_eq_true, if_false]
          rw [hrec]
          simp [pushSleep, pushCmd, List.replicate_succ, List.append_assoc]

theorem Bin.poll_loop_hit (env : Env) (fc : Bin.FileConfig) (name : String)
    (itv : Nat) (e : ServiceState) :
    ∀ (n k : Nat) (st : Exec), k < n →
      Bin.reachedAt env fc name e (st.trace.length + k) = true →
      (∀ j, j < k → Bin.reachedAt env fc name e (st.trace.length + j) = false) →
      Bin.poll_loop name env fc itv e n st
        = (true,
            ⟨st.trace ++ List.replicate (k + 1) (Bin.statusCmdStr fc name),
             st.sleeps ++ List.replicate k itv, st.warnings⟩) := by
  intro n
  induction n with
  | zero => intro k st hk; exact absurd hk (Nat.not_lt_zero k)
  | succ m ih =>
      intro k st hk hhit hmiss
      cases k with
      | zero =>
          have h0 : Bin.reachedAt env fc name e st.trace.length = true := by
            simpa using hhit
          rw [Bin.poll_loop_succ, h0]
          simp [pushCmd]
      | succ k0 =>
          have h0 : Bin.reachedAt env fc name e st.trace.length = false := by
            have := hmiss 0 (Nat.succ_pos k0)
            simpa using this
          rw [Bin.poll_loop_succ, h0]
          cases m with
          | zero => exact absurd (Nat.lt_of_succ_lt_succ hk) (Nat.not_lt_zero k0)
          | succ m0 =>
              have hrec := ih k0 (pushSleep (pushCmd st (Bin.statusCmdStr fc name)) itv)
                (Nat.lt_of_succ_lt_succ hk)
                (by
                  have := hhit
                  simpa [pushSleep, pushCmd, Nat.add_assoc, Nat.add_comm 1 k0] using this)
                (by
                  intro j hj
                  have := hmiss (j + 1) (Nat.succ_lt_succ hj)
                  simpa [pushSleep, pushCmd, Nat.add_assoc, Nat.add_comm 1 j] using this)
              simp only [Bool.false_eq_true, if_false]
              rw [hrec]
              simp [pushSleep, pushCmd, List.replicate_succ, List.append_assoc]

theorem MainRev.extract_string_eq (env : Env) (fc : MainRev.FileConfig) (name : String) (st : Exec) :
    MainRev.run_nssm_status_cmd_extract_status env fc name st
      = (MainRev.statusStrOutcome env fc name st.trace.length,
          pushCmd st (MainRev.statusCmdStr fc name)) := by
  simp only [MainRev.run_nssm_status_cmd_extract_status, MainRev.run_nssm_status_cmd,
    MainRev.run_nssm_cmd, runCmd, MainRev.statusStrOutcome, MainRev.statusCmdStr]
  cases h : env st.trace.length (fc.nssm_path ++ " " ++ ("status " ++ name)) with
  | ok out => simp
  | error m => simp

theorem MainRev.poll_empty_succ (env : Env) (fc : MainRev.FileConfig) (name : String)
    (itv : Nat) (n : Nat) (st : Exec) :
    MainRev.poll_loop_until_empty name env fc itv (n + 1) st
      = (if MainRev.stoppedAt env fc name st.trace.length
         then (true, pushCmd st (MainRev.statusCmdStr fc name))
         else
           MainRev.poll_loop_until_empty name env fc itv n
             (pushSleep (pushCmd st (MainRev.statusCmdStr fc name)) itv)) := by
  rw [MainRev.poll_loop_until_empty, MainRev.extract_string_eq]
  rfl

theorem MainRev.poll_empty_miss (env : Env) (fc : MainRev.FileConfig) (name : String)
    (itv : Nat) :
    ∀ (n : Nat) (st : Exec),
      (∀ j, j < n → MainRev.stoppedAt env fc name (st.trace.length + j) = false) →
      MainRev.poll_loop_until_empty name env fc itv n st
        = (false,
            ⟨st.trace ++ List.replicate n (MainRev.statusCmdStr fc name),
             st.sleeps ++ List.replicate n itv, st.warnings⟩) := by
  intro n
  induction n with
  | zero => intro st _; simp [MainRev.poll_loop_until_empty]
  | succ m ih =>
      intro st h
      have h0 : MainRev.stoppedAt env fc name st.trace.length = false := by
        have := h 0 (Nat.succ_pos m)
        simpa using this
      rw [MainRev.poll_empty_succ, h0]
      have hrec := ih (pushSleep (pushCmd st (MainRev.statusCmdStr fc name)) itv)
        (by
          intro j hj
          have := h (j + 1) (Nat.succ_lt_succ hj)
          simpa [pushSleep, pushCmd, Nat.add_assoc, Nat.add_comm 1 j] using this)
      simp only [Bool.false_eq_true, if_false]
      rw [hrec]
      simp [pushSleep, pushCmd, List.replicate_succ, List.append_assoc]

theorem MainRev.poll_empty_hit (env : Env) (fc : MainRev.FileConfig) (name : String)
    (itv : Nat) :
    ∀ (n k : Nat) (st : Exec), k < n →
      MainRev.stoppedAt env fc name (st.trace.length + k) = true →
      (∀ j, j < k → MainRev.stoppedAt env fc name (st.trace.length + j) = false) →
      MainRev.poll_loop_until_empty name env fc itv n st
        = (true,
            ⟨st.trace ++ List.replicate (k + 1) (MainRev.statusCmdStr fc name),
             st.sleeps ++ List.replicate k itv, st.warnings⟩) := by
  intro n
  induction n with
  | zero => intro k st hk; exact absurd hk (Nat.not_lt_zero k)
  | succ m ih =>
      intro k st hk hhit hmiss
      cases k with
      | zero =>
          have h0 : MainRev.stoppedAt env fc name st.trace.length = true := by
            simpa using hhit
          rw [MainRev.poll_empty_succ, h0]
          simp [pushCmd]
      | succ k0 =>
          have h0 : MainRev.stoppedAt env fc name st.trace.length = false := by
            have := hmiss 0 (Nat.succ_pos k0)
            simpa using this
          rw [MainRev.poll_empty_succ, h0]
          have hrec := ih k0 (pushSleep (pushCmd st (MainRev.statusCmdStr fc name)) itv)
            (Nat.lt_of_succ_lt_succ hk)
            (by
              have := hhit
              simpa [pushSleep, pushCmd, Nat.add_assoc, Nat.add_comm 1 k0] using this)
            (by
              intro j hj
              have := hmiss (j + 1) (Nat.succ_lt_succ hj)
              simpa [pushSleep, pushCmd, Nat.add_assoc, Nat.add_comm 1 j] using this)
          simp only [Bool.false_eq_true, if_false]
          rw [hrec]
          simp [pushSleep, pushCmd, List.replicate_succ, List.append_assoc]

/-- C2: for every target state, interval, and maxAttempts, the Bin poller
succeeds after exactly k queries and k minus 1 sleeps when the query reaches
the target first on attempt k within bounds; otherwise it fails after exactly
maxAttempts queries and maxAttempts minus 1 sleeps; zero attempts fail
immediately with zero queries and zero sleeps; and an erroring query counts
as target-not-yet-reached for that attempt instead of becoming the result. -/
theorem C2_poller_queries_sleeps (env : Env) (fc : Bin.FileConfig) (name : String)
    (itv n : Nat) (target : ServiceState) (st : Exec) :
    (∀ k, k < n → Bin.reachedAt env fc name target (st.trace.length + k) = true →
      (∀ j, j < k → Bin.reachedAt env fc name target (st.trace.length + j) = false) →
      Bin.poll_service_state_until name env fc itv n target st
        = (Except.ok (),
            ⟨st.trace ++ List.replicate (k + 1) (Bin.statusCmdStr fc name),
             st.sleeps ++ List.replicate k itv, st.warnings⟩))
    ∧ ((∀ j, j < n → Bin.reachedAt env fc name target (st.trace.length + j) = false) →
      Bin.poll_service_state_until name env fc itv n target st
        = (Except.error
            ["Unable to wait for service name \x27" ++ name ++ "\x27 to stop completely"],
            ⟨st.trace ++ List.replicate n (Bin.statusCmdStr fc name),
             st.sleeps ++ List.replicate (n - 1) itv, st.warnings⟩))
    ∧ (n = 0 →
      Bin.poll_service_state_until name env fc itv n target st
        = (Except.error
            ["Unable to wait for service name \x27" ++ name ++ "\x27 to stop completely"], st))
    ∧ (∀ idx m, Bin.statusOutcome env fc name idx = Except.error m →
        Bin.reachedAt env fc name target idx = false) := by
  refine ⟨?_, ?_, ?_, ?_⟩
  · intro k hk hhit hmiss
    rw [Bin.poll_service_state_until, Bin.poll_loop_hit env fc name itv target n k st hk hhit hmiss]
  · intro hmiss
    rw [Bin.poll_service_state_until, Bin.poll_loop_miss env fc name itv target n st hmiss]
    rfl
  · intro hn
    subst hn
    rw [Bin.poll_service_state_until]
    rfl
  · intro idx m h
    simp [Bin.reachedAt, Bin.reachedB, h]

/-- Witness for C2: a query that observes the target immediately makes the
poller succeed with one query and no sleep. -/
theorem C2_poller_queries_sleeps_witness :
    Bin.poll_service_state_until "svc" (fun _ _ => Except.ok "SERVICE_STOPPED")
      ⟨"nssm", none, none, none, none, none, []⟩ 7 3 ServiceState.Stopped Exec.start
      = (Except.ok (), ⟨["nssm status svc"], [], []⟩) := by
  have h :=
    (C2_poller_queries_sleeps (fun _ _ => Except.ok "SERVICE_STOPPED")
      ⟨"nssm", none, none, none, none, none, []⟩ "svc" 7 3 ServiceState.Stopped Exec.start).1
      0 (by decide) (by decide)
      (by intro j hj; exact absurd hj (Nat.not_lt_zero j))
  simpa [Exec.start, Bin.statusCmdStr] using h

/-- C10: whenever the Bin poller exhausts its attempts it fails with the
fixed message naming a failure to stop, for every expected state, so a
timeout while polling for Running also reports a failure to stop. -/
theorem C10_timeout_message_fixed (name : String) (env : Env) (fc : Bin.FileConfig)
    (itv n : Nat) (target : ServiceState) (st : Exec) :
    (∀ j, j < n → Bin.reachedAt env fc name target (st.trace.length + j) = false) →
    (Bin.poll_service_state_until name env fc itv n target st).1
      = Except.error
          ["Unable to wait for service name \x27" ++ name ++ "\x27 to stop completely"] := by
  intro hmiss
  rw [Bin.poll_service_state_until, Bin.poll_loop_miss env fc name itv target n st hmiss]
  rfl

/-- Witness for C10: a poll for the Running state that times out still
reports the failure-to-stop message. -/
theorem C10_timeout_message_fixed_witness :
    (Bin.poll_service_state_until "bar" (fun _ _ => Except.ok "SERVICE_STOPPED")
      ⟨"nssm", none, none, none, none, none, []⟩ 5 2 ServiceState.Running Exec.start).1
      = Except.error ["Unable to wait for service name \x27bar\x27 to stop completely"] := by
  exact C10_timeout_message_fixed "bar" (fun _ _ => Except.ok "SERVICE_STOPPED")
    ⟨"nssm", none, none, none, none, none, []⟩ 5 2 ServiceState.Running Exec.start
    (by decide)

/-- C9: the MainRev stop poll counts the service as stopped on the first
query whose trimmed status differs from SERVICE_STOP_PENDING (so
SERVICE_RUNNING counts as stopped while an erroring query counts as still
pending), it sleeps after every pending attempt including the last (so an
exhausted poll performs poll_count sleeps), and it is not equivalent to the
Bin revision poller. -/
theorem C9_mainrev_stop_poll (env : Env) (fc : MainRev.FileConfig) (name : String)
    (itv n : Nat) (st : Exec) :
    (∀ k, k < n → MainRev.stoppedAt env fc name (st.trace.length + k) = true →
      (∀ j, j < k → MainRev.stoppedAt env fc name (st.trace.length + j) = false) →
      MainRev.poll_service_status_until_empty name env fc itv n st
        = (Except.ok (),
            ⟨st.trace ++ List.replicate (k + 1) (MainRev.statusCmdStr fc name),
             st.sleeps ++ List.replicate k itv, st.warnings⟩))
    ∧ ((∀ j, j < n → MainRev.stoppedAt env fc name (st.trace.length + j) = false) →
      MainRev.poll_service_status_until_empty name env fc itv n st
        = (Except.error
            ["Unable to wait for service name \x27" ++ name ++ "\x27 to stop completely"],
            ⟨st.trace ++ List.replicate n (MainRev.statusCmdStr fc name),
             st.sleeps ++ List.replicate n itv, st.warnings⟩))
    ∧ (∀ idx s, MainRev.statusStrOutcome env fc name idx = Except.ok s →
        MainRev.stoppedAt env fc name idx = decide (s ≠ "SERVICE_STOP_PENDING"))
    ∧ (∀ idx m, MainRev.statusStrOutcome env fc name idx = Except.error m →
        MainRev.stoppedAt env fc name idx = false)
    ∧ ((MainRev.poll_service_status_until_empty "s"
          (fun _ _ => Except.ok "SERVICE_RUNNING")
          ⟨"n", none, none, none, []⟩ 5 1 Exec.start).1 = Except.ok ()
        ∧ (Bin.poll_service_state_until "s" (fun _ _ => Except.ok "SERVICE_RUNNING")
            ⟨"n", none, none, none, none, none, []⟩ 5 1 ServiceState.Stopped Exec.start).1
          = Except.error
              ["Unable to wait for service name \x27s\x27 to stop completely"]) := by
  refine ⟨?_, ?_, ?_, ?_, by decide, by decide⟩
  · intro k hk hhit hmiss
    rw [MainRev.poll_service_status_until_empty,
      MainRev.poll_empty_hit env fc name itv n k st hk hhit hmiss]
  · intro hmiss
    rw [MainRev.poll_service_status_until_empty,
      MainRev.poll_empty_miss env fc name itv n st hmiss]
  · intro idx s h
    simp [MainRev.stoppedAt, MainRev.hasStoppedB, h, MainRev.SERVICE_STOP_PENDING_STATUS]
  · intro idx m h
    simp [MainRev.stoppedAt, MainRev.hasStoppedB, h]

/-- Witness for C9: with every query answering SERVICE_STOP_PENDING, a
two-attempt stop poll fails after two queries and two sleeps. -/
theorem C9_mainrev_stop_poll_witness :
    MainRev.poll_service_status_until_empty "svc"
      (fun _ _ => Except.ok "SERVICE_STOP_PENDING") ⟨"nssm", none, none, none, []⟩ 9 2 Exec.start
      = (Except.error ["Unable to wait for service name \x27svc\x27 to stop completely"],
          ⟨["nssm status svc", "nssm status svc"], [9, 9], []⟩) := by
  have h :=
    (C9_mainrev_stop_poll (fun _ _ => Except.ok "SERVICE_STOP_PENDING")
      ⟨"nssm", none, none, none, []⟩ "svc" 9 2 Exec.start).2.1 (by decide)
  simpa [Exec.start, MainRev.statusCmdStr] using h

/-- C5: the status interpreter maps each of the seven fixed tokens to
exactly the matching lifecycle state, and every other string to an error
naming the unmatched token; the lookup is exact-match. -/
theorem C5_state_interpreter :
    (state_from_str "SERVICE_CONTINUE_PENDING" = Except.ok ServiceState.ContinuePending
      ∧ state_from_str "SERVICE_PAUSE_PENDING" = Except.ok ServiceState.PausePending
      ∧ state_from_str "SERVICE_PAUSED" = Except.ok ServiceState.Paused
      ∧ state_from_str "SERVICE_RUNNING" = Except.ok ServiceState.Running
      ∧ state_from_str "SERVICE_START_PENDING" = Except.ok ServiceState.StartPending
      ∧ state_from_str "SERVICE_STOP_PENDING" = Except.ok ServiceState.StopPending
      ∧ state_from_str "SERVICE_STOPPED" = Except.ok ServiceState.Stopped)
    ∧ (∀ s : String,
        s ∉ ["SERVICE_CONTINUE_PENDING", "SERVICE_PAUSE_PENDING", "SERVICE_PAUSED",
             "SERVICE_RUNNING", "SERVICE_START_PENDING", "SERVICE_STOP_PENDING",
             "SERVICE_STOPPED"] →
        state_from_str s
          = Except.error
              ("Unable to obtain valid state from status string \x27" ++ s ++ "\x27")) := by
  refine ⟨by decide, ?_⟩
  intro s hs
  simp only [List.mem_cons, List.not_mem_nil, or_false, not_or] at hs
  obtain ⟨h1, h2, h3, h4, h5, h6, h7⟩ := hs
  have b1 : (s == "SERVICE_CONTINUE_PENDING") = false := beq_eq_false_iff_ne.mpr h1
  have b2 : (s == "SERVICE_PAUSE_PENDING") = false := beq_eq_false_iff_ne.mpr h2
  have b3 : (s == "SERVICE_PAUSED") = false := beq_eq_false_iff_ne.mpr h3
  have b4 : (s == "SERVICE_RUNNING") = false := beq_eq_false_iff_ne.mpr h4
  have b5 : (s == "SERVICE_START_PENDING") = false := beq_eq_false_iff_ne.mpr h5
  have b6 : (s == "SERVICE_STOP_PENDING") = false := beq_eq_false_iff_ne.mpr h6
  have b7 : (s == "SERVICE_STOPPED") = false := beq_eq_false_iff_ne.mpr h7
  simp [state_from_str, STATE_MAP, List.lookup, b1, b2, b3, b4, b5, b6, b7]

/-- Witness for C5: an unknown token yields the formatted error message. -/
theorem C5_state_interpreter_witness :
    state_from_str "SERVICE_BOGUS"
      = Except.error "Unable to obtain valid state from status string \x27SERVICE_BOGUS\x27" := by
  have h := C5_state_interpreter.2 "SERVICE_BOGUS" (by decide)
  simpa using h

/-- C6: field merge returns the per-service field when present, otherwise
the global field when present, otherwise absent, independently per field;
in particular a block omitting start_on_create inherits it from global while
overriding deps locally. -/
theorem C6_merge_field_precedence (R : Type) (ps g : Option OtherConfig)
    (f : OtherConfig → Option R) :
    (∀ v, ps.bind f = some v → merge_other_conf ps g f = some v)
    ∧ (ps.bind f = none → merge_other_conf ps g f = g.bind f)
    ∧ (ps.bind f = none → g.bind f = none → merge_other_conf ps g f = none)
    ∧ (merge_other_conf (some ⟨some "A", none, none⟩) (some ⟨some "B", some true, none⟩)
        (fun o => o.deps) = some "A")
    ∧ (merge_other_conf (some ⟨some "A", none, none⟩) (some ⟨some "B", some true, none⟩)
        (fun o => o.start_on_create) = some true) := by
  refine ⟨?_, ?_, ?_, by decide, by decide⟩
  · intro v h
    simp [merge_other_conf, h, Option.or]
  · intro h
    simp [merge_other_conf, h, Option.or]
  · intro h1 h2
    simp [merge_other_conf, h1, h2, Option.or]

/-- Witness for C6: a per-service block whose deps field is absent inherits
the global deps value. -/
theorem C6_merge_field_precedence_witness :
    merge_other_conf (some (⟨none, none, none⟩ : OtherConfig))
      (some ⟨some "B", some true, none⟩) (fun o => o.deps) = some "B" := by
  have h :=
    (C6_merge_field_precedence String (some ⟨none, none, none⟩)
      (some ⟨some "B", some true, none⟩) (fun o => o.deps)).2.1 rfl
  simpa using h

theorem Bin.reconcile_all_names (env : Env) (fc : Bin.FileConfig)
    (si sc ti tc : Nat) :
    ∀ (svcs : List Service) (st : Exec),
      ((Bin.reconcile_all env fc si sc ti tc svcs st).1.map Prod.fst)
        = svcs.map Service.name := by
  intro svcs
  induction svcs with
  | nil => intro st; rfl
  | cons svc rest ih =>
      intro st
      rw [Bin.reconcile_all]
      rcases hr : Bin.reconcile env fc si sc ti tc svc st with ⟨outcome, st1⟩
      simp only [hr]
      rcases hall : Bin.reconcile_all env fc si sc ti tc rest st1 with ⟨outs, st2⟩
      simp only [hall]
      have h2 := ih st1
      rw [hall] at h2
      simpa using h2

/-- C1: the Bin driver reconciles every declared service in document order,
producing one outcome per service (so a fatal failure in one service never
prevents a later one from being reconciled), the driver function itself
always returns Ok, and the process exits with code 0 whenever the
configuration loaded, even when every per-service outcome is a failure. -/
theorem C1_driver_isolation_exit_zero (env : Env) (fc : Bin.FileConfig) (st : Exec) :
    ((Bin.nssm_exec env fc st).1 = Except.ok ())
    ∧ ((Bin.nssm_exec env fc st).2.1.map Prod.fst = fc.services.map Service.name)
    ∧ (Bin.mainExit env (Except.ok fc) = 0)
    ∧ ((Bin.nssm_exec (fun _ _ => Except.error "boom")
          ⟨"n", none, none, none, none, none,
            [⟨"s1", "p1", none, none, none, none⟩, ⟨"s2", "p2", none, none, none, none⟩]⟩
          Exec.start).2.1
        = [("s1", Except.error ["Unable to install service \x27s1\x27", "boom"]),
           ("s2", Except.error ["Unable to install service \x27s2\x27", "boom"])]
        ∧ Bin.mainExit (fun _ _ => Except.error "boom")
            (Except.ok
              ⟨"n", none, none, none, none, none,
                [⟨"s1", "p1", none, none, none, none⟩, ⟨"s2", "p2", none, none, none, none⟩]⟩)
          = 0) := by
  refine ⟨rfl, ?_, rfl, by decide, by decide⟩
  exact Bin.reconcile_all_names env fc _ _ _ _ fc.services st

/-- C8: whenever an account is resolved, the Bin account step issues exactly
one ObjectName set command containing the username and a password token; an
empty password renders as the explicit two-character quoted token and is
never omitted, while a non-empty password renders verbatim. -/
theorem C8_objectname_password_token (env : Env) (fc : Bin.FileConfig)
    (name : String) (a : Account) (st : Exec) :
    ((Bin.account_phase env fc name (some a) st).2.trace
      = st.trace
          ++ [fc.nssm_path ++ " " ++ ("set " ++ (name ++ " ObjectName " ++ a.user ++ " "
              ++ (if a.password ≠ "" then a.password else "\"\"")))])
    ∧ (a.password = "" →
        (if a.password ≠ "" then a.password else "\"\"") = "\"\""
          ∧ ("\"\"" : String).length = 2)
    ∧ (a.password ≠ "" → (if a.password ≠ "" then a.password else "\"\"") = a.password) := by
  refine ⟨?_, ?_, ?_⟩
  · rw [Bin.account_phase, Bin.run_nssm_set_cmd, Bin.run_nssm_cmd, runCmd]
    cases env st.trace.length
        (fc.nssm_path ++ " " ++ ("set " ++ (name ++ " ObjectName " ++ a.user ++ " "
          ++ (if a.password ≠ "" then a.password else "\"\"")))) <;>
      simp [pushCmd]
  · intro h
    exact ⟨by simp [h], by decide⟩
  · intro h
    simp [h]

/-- Witness for C8: an account with an empty password produces the
ObjectName command ending in the explicit quoted empty token. -/
theorem C8_objectname_password_token_witness :
    (Bin.account_phase (fun _ _ => Except.ok "") ⟨"nssm", none, none, none, none, none, []⟩
      "svc" (some ⟨"bob", ""⟩) Exec.start).2.trace
      = ["nssm set svc ObjectName bob \"\""] := by
  have h :=
    (C8_objectname_password_token (fun _ _ => Except.ok "")
      ⟨"nssm", none, none, none, none, none, []⟩ "svc" ⟨"bob", ""⟩ Exec.start).1
  simpa [Exec.start] using h

/-- Counterexample for C3: in the Bin revision (the richest variant by
lifecycle features) the install command carries the raw configured relative
path verbatim, which differs from any canonicalized absolute form of it. -/
theorem C3_install_path_counterexample :
    (Bin.install_phase (fun _ _ => Except.ok "")
      ⟨"nssm", none, none, none, none, none, []⟩
      ⟨"svc", "rel/app.exe", none, none, none, none⟩ Exec.start).2.trace
      = ["nssm install svc rel/app.exe"]
    ∧ "nssm install svc rel/app.exe" ≠ "nssm install svc /abs/rel/app.exe" := by
  constructor
  · rfl
  · decide

/-- C3 amended: the MainRev revision issues the install command with the
canonicalized path whenever canonicalization succeeds, while the Bin
revision issues it with the raw configured path. -/
theorem C3_install_path_amended (env : Env) (mfc : MainRev.FileConfig)
    (bfc : Bin.FileConfig) (canon : String → Except String String)
    (svc : Service) (st st2 : Exec) :
    (∀ c, canon svc.path = Except.ok c →
      (MainRev.install_block env mfc canon svc st).2.trace
        = st.trace ++ [mfc.nssm_path ++ " " ++ ("install " ++ svc.name ++ " " ++ c)])
    ∧ ((Bin.install_phase env bfc svc st2).2.trace
        = st2.trace ++ [bfc.nssm_path ++ " " ++ ("install " ++ svc.name ++ " " ++ svc.path)]) := by
  constructor
  · intro c hc
    rw [MainRev.install_block, hc]
    simp only [MainRev.run_nssm_cmd, runCmd]
    cases h : env st.trace.length (mfc.nssm_path ++ " " ++ ("install " ++ svc.name ++ " " ++ c)) <;>
      simp [h, pushCmd]
  · simp only [Bin.install_phase, Bin.run_nssm_cmd, runCmd]
    cases h : env st2.trace.length
        (bfc.nssm_path ++ " " ++ ("install " ++ svc.name ++ " " ++ svc.path)) <;>
      simp [h, pushCmd]

/-- Witness for C3 amended: with a canonicalization oracle mapping the
relative path to an absolute one, the MainRev install command carries the
absolute path. -/
theorem C3_install_path_amended_witness :
    (MainRev.install_block (fun _ _ => Except.ok "")
      ⟨"nssm", none, none, none, []⟩ (fun _ => Except.ok "/abs/rel/app.exe")
      ⟨"svc", "rel/app.exe", none, none, none, none⟩ Exec.start).2.trace
      = ["nssm install svc /abs/rel/app.exe"] := by
  have h :=
    (C3_install_path_amended (fun _ _ => Except.ok "") ⟨"nssm", none, none, none, []⟩
      ⟨"nssm", none, none, none, none, none, []⟩ (fun _ => Except.ok "/abs/rel/app.exe")
      ⟨"svc", "rel/app.exe", none, none, none, none⟩ Exec.start Exec.start).1
      "/abs/rel/app.exe" rfl
  simpa [Exec.start] using h

theorem runCmd_ok (env : Env) (st : Exec) (cmd : String)
    (h : (env st.trace.length cmd).isOk = true) :
    runCmd env st cmd = (Except.ok ((env st.trace.length cmd).toOption.getD ""), pushCmd st cmd) := by
  rw [runCmd]
  cases h2 : env st.trace.length cmd with
  | ok out => simp [Except.toOption]
  | error m => rw [h2] at h; simp [Except.isOk, Except.toBool] at h

theorem Bin.install_phase_ok (env : Env) (fc : Bin.FileConfig) (svc : Service) (st : Exec)
    (h : ∀ c, (env st.trace.length c).isOk = true) :
    Bin.install_phase env fc svc st
      = (Except.ok (), pushCmd st (Bin.installCmdStr fc svc)) := by
  rw [Bin.install_phase, Bin.run_nssm_cmd, runCmd_ok env st _ (h _)]
  rfl

theorem Bin.app_dir_phase_ok (env : Env) (fc : Bin.FileConfig) (svc : Service) (st : Exec)
    (h : ∀ c, (env st.trace.length c).isOk = true) :
    Bin.app_dir_phase env fc svc st
      = (Except.ok (), ⟨st.trace ++ Bin.appDirCmds fc svc, st.sleeps, st.warnings⟩) := by
  cases hd : svc.startup_dir with
  | none => simp [Bin.app_dir_phase, Bin.appDirCmds, hd]
  | some d =>
      rw [Bin.app_dir_phase, hd]
      simp only [Bin.run_nssm_set_cmd, Bin.run_nssm_cmd]
      rw [runCmd_ok env st _ (h _)]
      simp [pushCmd, Bin.appDirCmds, hd]

theorem Bin.set_if_some_ok (env : Env) (fc : Bin.FileConfig)
    (name field : String) (param : Option String) (st : Exec)
    (h : ∀ c, (env st.trace.length c).isOk = true) :
    Bin.run_nssm_set_cmd_if_some env fc name field param st
      = (Except.ok (),
          ⟨st.trace ++ Bin.setIfSomeCmds fc name field param, st.sleeps, st.warnings⟩) := by
  cases hp : param with
  | none => simp [Bin.run_nssm_set_cmd_if_some, Bin.setIfSomeCmds, hp]
  | some p =>
      rw [Bin.run_nssm_set_cmd_if_some]
      simp only [Bin.run_nssm_set_cmd, Bin.run_nssm_cmd]
      rw [runCmd_ok env st _ (h _)]
      simp [pushCmd, Bin.setIfSomeCmds]

theorem Bin.account_phase_ok (env : Env) (fc : Bin.FileConfig)
    (name : String) (acct : Option Account) (st : Exec)
    (h : ∀ c, (env st.trace.length c).isOk = true) :
    Bin.account_phase env fc name acct st
      = (Except.ok (),
          ⟨st.trace ++ Bin.acctCmds fc name acct, st.sleeps, st.warnings⟩) := by
  cases ha : acct with
  | none => simp [Bin.account_phase, Bin.acctCmds, ha]
  | some a =>
      rw [Bin.account_phase]
      simp only [Bin.run_nssm_set_cmd, Bin.run_nssm_cmd]
      rw [runCmd_ok env st _ (h _)]
      simp [pushCmd, Bin.acctCmds]

theorem Bin.start_phase_skip (env : Env) (fc : Bin.FileConfig) (name : String)
    (ti tc : Nat) (o : Option Bool) (st : Exec) (h : o ≠ some true) :
    Bin.start_phase env fc name ti tc o st = (Except.ok (), st) := by
  cases o with
  | none => rfl
  | some b =>
      cases b with
      | false => rfl
      | true => exact absurd rfl h

theorem Bin.reconcile_after_existing_ok (env : Env) (fc : Bin.FileConfig)
    (ti tc : Nat) (svc : Service) (st : Exec)
    (henv : ∀ i c, st.trace.length ≤ i → (env i c).isOk = true)
    (hstart : merge_other_conf svc.other fc.global (fun o => o.start_on_create) ≠ some true) :
    Bin.reconcile_after_existing env fc ti tc svc st
      = (Except.ok (),
          ⟨st.trace ++ [Bin.installCmdStr fc svc]
            ++ Bin.appDirCmds fc svc
            ++ Bin.setIfSomeCmds fc svc.name "AppParameters" svc.args
            ++ Bin.setIfSomeCmds fc svc.name "Description" svc.description
            ++ Bin.setIfSomeCmds fc svc.name "DependOnService"
                (merge_other_conf svc.other fc.global (fun o => o.deps))
            ++ Bin.acctCmds fc svc.name
                (merge_other_conf svc.other fc.global (fun o => o.account)),
           st.sleeps, st.warnings⟩) := by
  rw [Bin.reconcile_after_existing]
  rw [Bin.install_phase_ok env fc svc st (fun c => henv _ c (Nat.le_refl _))]
  simp only [andThen, pushCmd]
  rw [Bin.app_dir_phase_ok env fc svc
    ⟨st.trace ++ [Bin.installCmdStr fc svc], st.sleeps, st.warnings⟩
    (fun c => henv _ c (by simp only [List.length_append]; omega))]
  simp only [andThen]
  rw [Bin.set_if_some_ok env fc svc.name "AppParameters" svc.args
    ⟨st.trace ++ [Bin.installCmdStr fc svc] ++ Bin.appDirCmds fc svc, st.sleeps, st.warnings⟩
    (fun c => henv _ c (by simp only [List.length_append]; omega))]
  simp only [andThen]
  rw [Bin.set_if_some_ok env fc svc.name "Description" svc.description
    ⟨st.trace ++ [Bin.installCmdStr fc svc] ++ Bin.appDirCmds fc svc
      ++ Bin.setIfSomeCmds fc svc.name "AppParameters" svc.args, st.sleeps, st.warnings⟩
    (fun c => henv _ c (by simp only [List.length_append]; omega))]
  simp only [andThen]
  rw [Bin.set_if_some_ok env fc svc.name "DependOnService"
    (merge_other_conf svc.other fc.global (fun o => o.deps))
    ⟨st.trace ++ [Bin.installCmdStr fc svc] ++ Bin.appDirCmds fc svc
      ++ Bin.setIfSomeCmds fc svc.name "AppParameters" svc.args
      ++ Bin.setIfSomeCmds fc svc.name "Description" svc.description, st.sleeps, st.warnings⟩
    (fun c => henv _ c (by simp only [List.length_append]; omega))]
  simp only [andThen]
  rw [Bin.account_phase_ok env fc svc.name
    (merge_other_conf svc.other fc.global (fun o => o.account))
    ⟨st.trace ++ [Bin.installCmdStr fc svc] ++ Bin.appDirCmds fc svc
      ++ Bin.setIfSomeCmds fc svc.name "AppParameters" svc.args
      ++ Bin.setIfSomeCmds fc svc.name "Description" svc.description
      ++ Bin.setIfSomeCmds fc svc.name "DependOnService"
          (merge_other_conf svc.other fc.global (fun o => o.deps)), st.sleeps, st.warnings⟩
    (fun c => henv _ c (by simp only [List.length_append]; omega))]
  simp only [andThen]
  rw [Bin.start_phase_skip env fc svc.name ti tc
    (merge_other_conf svc.other fc.global (fun o => o.start_on_create)) _ hstart]

/-- C7: when the initial status query of a service fails, the Bin reconciler
skips the stop command, the stop poll and the remove command, proceeding
directly to the install step; and when the remaining install and configure
steps all succeed (with no auto-start resolved), the outcome of that service
is success. -/
theorem C7_query_failure_skips_teardown (env : Env) (fc : Bin.FileConfig)
    (si sc ti tc : Nat) (svc : Service) (st : Exec) (m : Err) :
    (Bin.statusOutcome env fc svc.name st.trace.length = Except.error m →
      Bin.existing_service_phase env fc si sc svc st
        = (Except.ok (), pushCmd st (Bin.statusCmdStr fc svc.name))
      ∧ Bin.reconcile env fc si sc ti tc svc st
        = Bin.reconcile_after_existing env fc ti tc svc
            (pushCmd st (Bin.statusCmdStr fc svc.name)))
    ∧ (Bin.statusOutcome env fc svc.name st.trace.length = Except.error m →
      (∀ i c, st.trace.length < i → (env i c).isOk = true) →
      merge_other_conf svc.other fc.global (fun o => o.start_on_create) ≠ some true →
      Bin.reconcile env fc si sc ti tc svc st
        = (Except.ok (),
            ⟨st.trace ++ [Bin.statusCmdStr fc svc.name] ++ [Bin.installCmdStr fc svc]
              ++ Bin.appDirCmds fc svc
              ++ Bin.setIfSomeCmds fc svc.name "AppParameters" svc.args
              ++ Bin.setIfSomeCmds fc svc.name "Description" svc.description
              ++ Bin.setIfSomeCmds fc svc.name "DependOnService"
                  (merge_other_conf svc.other fc.global (fun o => o.deps))
              ++ Bin.acctCmds fc svc.name
                  (merge_other_conf svc.other fc.global (fun o => o.account)),
             st.sleeps, st.warnings⟩)) := by
  constructor
  · intro hm
    have hph : Bin.existing_service_phase env fc si sc svc st
        = (Except.ok (), pushCmd st (Bin.statusCmdStr fc svc.name)) := by
      rw [Bin.existing_service_phase, Bin.extract_state_eq, hm]
    refine ⟨hph, ?_⟩
    rw [Bin.reconcile, hph]
    rfl
  · intro hm henv hstart
    have hph : Bin.existing_service_phase env fc si sc svc st
        = (Except.ok (), pushCmd st (Bin.statusCmdStr fc svc.name)) := by
      rw [Bin.existing_service_phase, Bin.extract_state_eq, hm]
    rw [Bin.reconcile, hph]
    simp only [andThen]
    rw [Bin.reconcile_after_existing_ok env fc ti tc svc
      (pushCmd st (Bin.statusCmdStr fc svc.name))
      (fun i c hle => henv i c (by rw [pushCmd_length] at hle; omega)) hstart]
    simp [pushCmd]

/-- Witness for C7: a failing initial query followed by succeeding install
and configure commands yields a successful outcome whose trace contains no
stop, poll, or remove command. -/
theorem C7_query_failure_skips_teardown_witness :
    Bin.reconcile (fun i _ => if i = 0 then Except.error "no status" else Except.ok "")
      ⟨"nssm", none, none, none, none, none, []⟩ 500 5 500 5
      ⟨"foo", "p.exe", some "dir", some "a b", none, none⟩ Exec.start
      = (Except.ok (),
          ⟨["nssm status foo", "nssm install foo p.exe", "nssm set foo AppDirectory dir",
            "nssm set foo AppParameters a b"], [], []⟩) := by
  have h :=
    (C7_query_failure_skips_teardown
      (fun i _ => if i = 0 then Except.error "no status" else Except.ok "")
      ⟨"nssm", none, none, none, none, none, []⟩ 500 5 500 5
      ⟨"foo", "p.exe", some "dir", some "a b", none, none⟩ Exec.start ["no status"]).2
      (by decide)
      (by
        intro i c hi
        have hne : i ≠ 0 := by omega
        simp [hne, Except.isOk, Except.toBool])
      (by decide)
  simpa [Exec.start, Bin.statusCmdStr, Bin.installCmdStr, Bin.appDirCmds, Bin.setIfSomeCmds,
    Bin.acctCmds, merge_other_conf, Option.or] using h

/-- C4: in the Bin reconciler, a failing stop command on a present,
not-stopped service is non-fatal: its chained message is logged as a warning
and execution continues into the stop poll, whose timeout alone is fatal for
that service; symmetrically, when auto-start resolves to true a failing
start command is logged as a warning and is followed by the poll for
Running, whose timeout is fatal. -/
theorem C4_tolerant_stop_start (env : Env) (fc : Bin.FileConfig)
    (si sc ti tc : Nat) (svc : Service) (name : String) (st : Exec)
    (m : String) (s : ServiceState) :
    (env st.trace.length (fc.nssm_path ++ " " ++ ("stop " ++ name)) = Except.error m →
      Bin.stop_and_poll env fc si sc name st
        = Bin.poll_service_state_until name env fc si sc ServiceState.Stopped
            (pushWarn (pushCmd st (fc.nssm_path ++ " " ++ ("stop " ++ name)))
              (chain_service_msg [m]
                "Service stopping returned error, temporarily allowing this for" name)))
    ∧ (Bin.statusOutcome env fc svc.name st.trace.length = Except.ok s →
      s ≠ ServiceState.Stopped →
      Bin.existing_service_phase env fc si sc svc st
        = andThen
            (Bin.stop_and_poll env fc si sc svc.name (pushCmd st (Bin.statusCmdStr fc svc.name)))
            (Bin.remove_step env fc svc.name))
    ∧ (Bin.statusOutcome env fc svc.name st.trace.length = Except.ok s →
      s ≠ ServiceState.Stopped →
      env (st.trace.length + 1) (fc.nssm_path ++ " " ++ ("stop " ++ svc.name))
        = Except.error m →
      (∀ j, j < sc →
        Bin.reachedAt env fc svc.name ServiceState.Stopped (st.trace.length + 2 + j) = false) →
      (Bin.existing_service_phase env fc si sc svc st).1
        = Except.error
            ["Unable to wait for service name \x27" ++ svc.name ++ "\x27 to stop completely"])
    ∧ (env st.trace.length (fc.nssm_path ++ " " ++ ("start " ++ name)) = Except.error m →
      Bin.start_phase env fc name ti tc (some true) st
        = Bin.poll_service_state_until name env fc ti tc ServiceState.Running
            (pushWarn (pushCmd st (fc.nssm_path ++ " " ++ ("start " ++ name)))
              (chain_service_msg [m]
                "Service starting returned error, temporarily allowing this for" name)))
    ∧ (env st.trace.length (fc.nssm_path ++ " " ++ ("start " ++ name)) = Except.error m →
      (∀ j, j < tc →
        Bin.reachedAt env fc name ServiceState.Running (st.trace.length + 1 + j) = false) →
      (Bin.start_phase env fc name ti tc (some true) st).1
        = Except.error
            ["Unable to wait for service name \x27" ++ name ++ "\x27 to stop completely"]) := by
  have hstop_tol :
      env st.trace.length (fc.nssm_path ++ " " ++ ("stop " ++ name)) = Except.error m →
      Bin.stop_and_poll env fc si sc name st
        = Bin.poll_service_state_until name env fc si sc ServiceState.Stopped
            (pushWarn (pushCmd st (fc.nssm_path ++ " " ++ ("stop " ++ name)))
              (chain_service_msg [m]
                "Service stopping returned error, temporarily allowing this for" name)) := by
    intro h
    rw [Bin.stop_and_poll, Bin.run_nssm_cmd, runCmd, h]
  have hphase :
      Bin.statusOutcome env fc svc.name st.trace.length = Except.ok s →
      s ≠ ServiceState.Stopped →
      Bin.existing_service_phase env fc si sc svc st
        = andThen
            (Bin.stop_and_poll env fc si sc svc.name (pushCmd st (Bin.statusCmdStr fc svc.name)))
            (Bin.remove_step env fc svc.name) := by
    intro hs hneq
    rw [Bin.existing_service_phase, Bin.extract_state_eq, hs]
    simp only [if_neg hneq]
  have hstart_tol :
      env st.trace.length (fc.nssm_path ++ " " ++ ("start " ++ name)) = Except.error m →
      Bin.start_phase env fc name ti tc (some true) st
        = Bin.poll_service_state_until name env fc ti tc ServiceState.Running
            (pushWarn (pushCmd st (fc.nssm_path ++ " " ++ ("start " ++ name)))
              (chain_service_msg [m]
                "Service starting returned error, temporarily allowing this for" name)) := by
    intro h
    rw [Bin.start_phase, Bin.run_nssm_cmd, runCmd, h]
  refine ⟨hstop_tol, hphase, ?_, hstart_tol, ?_⟩
  · intro hs hneq hstop hmiss
    have hstop2 :
        env (pushCmd st (Bin.statusCmdStr fc svc.name)).trace.length
            (fc.nssm_path ++ " " ++ ("stop " ++ svc.name)) = Except.error m := by
      rw [pushCmd_length]
      exact hstop
    have htol' :
        Bin.stop_and_poll env fc si sc svc.name (pushCmd st (Bin.statusCmdStr fc svc.name))
          = Bin.poll_service_state_until svc.name env fc si sc ServiceState.Stopped
              (pushWarn
                (pushCmd (pushCmd st (Bin.statusCmdStr fc svc.name))
                  (fc.nssm_path ++ " " ++ ("stop " ++ svc.name)))
                (chain_service_msg [m]
                  "Service stopping returned error, temporarily allowing this for" svc.name)) := by
      rw [Bin.stop_and_poll, Bin.run_nssm_cmd, runCmd, hstop2]
    rw [hphase hs hneq, htol', Bin.poll_service_state_until]
    rw [Bin.poll_loop_miss env fc svc.name si ServiceState.Stopped sc _
      (by
        intro j hj
        have := hmiss j hj
        simpa [pushWarn, pushCmd, Nat.add_assoc] using this)]
    rfl
  · intro hgo hmiss
    rw [hstart_tol hgo, Bin.poll_service_state_until]
    rw [Bin.poll_loop_miss env fc name ti ServiceState.Running tc _
      (by
        intro j hj
        have := hmiss j hj
        simpa [pushWarn, pushCmd, Nat.add_assoc] using this)]
    rfl

/-- Witness for C4: a Running service whose stop command errors once is
still polled; with the poll never observing Stopped, the phase fails with
the poll timeout only. -/
theorem C4_tolerant_stop_start_witness :
    (Bin.existing_service_phase
      (fun i _ => if i = 1 then Except.error "transient" else Except.ok "SERVICE_RUNNING")
      ⟨"nssm", none, none, none, none, none, []⟩ 10 2
      ⟨"svc", "p", none, none, none, none⟩ Exec.start).1
      = Except.error ["Unable to wait for service name \x27svc\x27 to stop completely"] := by
  exact
    (C4_tolerant_stop_start
      (fun i _ => if i = 1 then Except.error "transient" else Except.ok "SERVICE_RUNNING")
      ⟨"nssm", none, none, none, none, none, []⟩ 10 2 500 5
      ⟨"svc", "p", none, none, none, none⟩ "x" Exec.start "transient"
      ServiceState.Running).2.2.1
      (by decide) (by decide) (by decide) (by decide)
